import Mathlib

/-!
Verification of the aria-usage accessibility checker.

Shallow embedding of the core logic of `src/actions.ts`,
`src/app/api/check/route.ts` and `src/lib/accessibility-types.ts`.
The browser-automation engine is an external collaborator (spec section 6), so a
page is modelled as an oracle: the metadata extracted after the n-th Tab press,
the metadata extracted after the n-th Shift+Tab press, whether programmatically
focusing a selector succeeds, whether navigation fails, and the static DOM data
(image elements in document order, count of ARIA-attributed nodes).
-/

/-- `FocusTarget` from `src/lib/accessibility-types.ts` (also `src/actions.ts`):
one visited focusable element snapshot. -/
structure FocusTarget where
  selector : String
  tag : String
  role : Option String
  name : Option String
  hasAccessibleName : Bool
  htmlSnippet : String
deriving DecidableEq, Repr

/-- `TabOrderReport`: aggregate of one forward walk.
`shiftTabConsistent` is tri-state (`boolean | null` in the source). -/
structure TabOrderReport where
  visited : List FocusTarget
  cycleDetected : Bool
  limitReached : Bool
  shiftTabConsistent : Option Bool
deriving DecidableEq, Repr

/-- One entry of `imagesMissingAlt`: `{ src: string | null; snippet: string }`. -/
structure AriaImage where
  src : Option String
  snippet : String
deriving DecidableEq, Repr

/-- `AriaReport` from the source. -/
structure AriaReport where
  ariaAttributeCount : Nat
  imagesMissingAlt : List AriaImage
deriving DecidableEq, Repr

/-- `AccessibilityCheckState`: the top-level result envelope.  Optional fields
of the TypeScript type become `Option`. -/
structure AccessibilityCheckState where
  ok : Bool
  summary : String
  url : Option String
  tabOrder : Option TabOrderReport
  aria : Option AriaReport
  errors : Option (List String)
deriving DecidableEq, Repr

/-- An image element as seen by `getAriaReport`: the attributes the scanner
reads (`getAttribute` returns `null` or a string, hence `Option`), plus its
serialized markup. -/
structure ImgNode where
  alt : Option String
  role : Option String
  src : Option String
  outerHTML : String
deriving DecidableEq, Repr

/-- The page oracle: everything the checker observes from the browser.
`tabStream n` is the result of `getActiveElementMetadata` after the page has
received `n + 1` forward Tab presses; `shiftStream n` likewise after `n + 1`
Shift+Tab presses following the re-focus; `refocus sel` is whether
`document.querySelector(sel)` finds an `HTMLElement` (the `refocused` flag);
`navError` is `some msg` when `page.goto` throws with message `msg`. -/
structure PageModel where
  tabStream : Nat → Option FocusTarget
  refocus : String → Bool
  shiftStream : Nat → Option FocusTarget
  navError : Option String
  ariaCount : Nat
  images : List ImgNode

/-- JS `String.prototype.slice(0, n)` on the character sequence, used for the
160-character markup snippet caps. -/
def strTake (s : String) (n : Nat) : String :=
  String.mk (s.toList.take n)

/-- `MAX_TAB_ITERATIONS` in `src/lib/accessibility-types.ts` (used by
`src/app/api/check/route.ts`). -/
def MAX_TAB_ITERATIONS : Nat := 100

/-- `MAX_TAB_ITERATIONS` in `src/actions.ts` (a distinct constant with the
same name, used only by the server action). -/
def MAX_TAB_ITERATIONS_actions : Nat := 30

/-- The body of the `for` loop of `buildTabOrderReport`: `i` is the stream
index (number of Tab presses so far), `fuel` the remaining iterations,
`visited` the accumulator.  Returns the final `visited` together with the
`cycleDetected` flag.  Breaking on an absent extraction or on fuel exhaustion
leaves the flag `false`; breaking on a revisited (selector, name) pair sets it
`true` without appending the repeat. -/
def tabWalkAux (s : Nat → Option FocusTarget) :
    Nat → Nat → List FocusTarget → List FocusTarget × Bool
  | _, 0, visited => (visited, false)
  | i, fuel + 1, visited =>
    match s i with
    | none => (visited, false)
    | some target =>
      if visited.any (fun item =>
          item.selector == target.selector && item.name == target.name) then
        (visited, true)
      else
        tabWalkAux s (i + 1) fuel (visited ++ [target])

/-- The loop of `verifyShiftTab`: `i` is the loop variable (running from
`visited.length - 1` down to `1`), `k` the number of Shift+Tab presses already
performed.  Each step reads the extraction after press `k` and compares it
with `visited[i - 1]`. -/
def verifyLoop (s : Nat → Option FocusTarget) (visited : List FocusTarget) :
    Nat → Nat → Bool
  | 0, _ => true
  | i + 1, k =>
    match s k with
    | none => false
    | some target =>
      match visited.get? i with
      | none => false
      | some expected =>
        if target.selector == expected.selector && target.name == expected.name then
          verifyLoop s visited i (k + 1)
        else
          false

/-- `verifyShiftTab` from the source: `null` for fewer than two entries or a
failed re-focus of the last entry's selector, otherwise the outcome of the
reverse walk. -/
def verifyShiftTab (refocus : String → Bool) (s : Nat → Option FocusTarget)
    (visited : List FocusTarget) : Option Bool :=
  if visited.length ≤ 1 then
    none
  else
    match visited.get? (visited.length - 1) with
    | none => none
    | some lastTarget =>
      if refocus lastTarget.selector then
        some (verifyLoop s visited (visited.length - 1) 0)
      else
        none

/-- `buildTabOrderReport` from the source, parameterized by the iteration
limit (the two implementations differ only in which `MAX_TAB_ITERATIONS`
constant they reference). -/
def buildTabOrderReport (maxIters : Nat) (pm : PageModel) : TabOrderReport :=
  let r := tabWalkAux pm.tabStream 0 maxIters []
  { visited := r.1
    cycleDetected := r.2
    limitReached := r.1.length == maxIters
    shiftTabConsistent := verifyShiftTab pm.refocus pm.shiftStream r.1 }

/- ### Lemmas about the forward walk -/

theorem tabWalkAux_length_le (s : Nat → Option FocusTarget) :
    ∀ (fuel i : Nat) (v : List FocusTarget),
      (tabWalkAux s i fuel v).1.length ≤ v.length + fuel := by
  intro fuel
  induction fuel with
  | zero => intro i v; simp [tabWalkAux]
  | succ fuel ih =>
    intro i v
    rw [tabWalkAux]
    split
    · exact Nat.le_add_right _ _
    · split
      · exact Nat.le_add_right _ _
      · next target heq hg =>
          have := ih (i + 1) (v ++ [target])
          simp only [List.length_append, List.length_singleton] at this
          omega

theorem le_tabWalkAux_length (s : Nat → Option FocusTarget) :
    ∀ (fuel i : Nat) (v : List FocusTarget),
      v.length ≤ (tabWalkAux s i fuel v).1.length := by
  intro fuel
  induction fuel with
  | zero => intro i v; simp [tabWalkAux]
  | succ fuel ih =>
    intro i v
    rw [tabWalkAux]
    split
    · exact Nat.le_refl _
    · split
      · exact Nat.le_refl _
      · next target heq hg =>
          have := ih (i + 1) (v ++ [target])
          simp only [List.length_append, List.length_singleton] at this
          omega

theorem tabWalkAux_succ_none (s : Nat → Option FocusTarget) (i fuel : Nat)
    (v : List FocusTarget) (heq : s i = none) :
    tabWalkAux s i (fuel + 1) v = (v, false) := by
  simp [tabWalkAux, heq]

theorem tabWalkAux_succ_pos (s : Nat → Option FocusTarget) (i fuel : Nat)
    (v : List FocusTarget) (target : FocusTarget) (heq : s i = some target)
    (hg : v.any (fun item =>
      item.selector == target.selector && item.name == target.name) = true) :
    tabWalkAux s i (fuel + 1) v = (v, true) := by
  simp [tabWalkAux, heq, hg]

theorem tabWalkAux_succ_neg (s : Nat → Option FocusTarget) (i fuel : Nat)
    (v : List FocusTarget) (target : FocusTarget) (heq : s i = some target)
    (hg : ¬ v.any (fun item =>
      item.selector == target.selector && item.name == target.name) = true) :
    tabWalkAux s i (fuel + 1) v = tabWalkAux s (i + 1) fuel (v ++ [target]) := by
  simp [tabWalkAux, heq, hg]

theorem tabWalkAux_length_eq_iff (s : Nat → Option FocusTarget) :
    ∀ (fuel i : Nat) (v : List FocusTarget),
      (tabWalkAux s i fuel v).1.length = v.length + fuel ↔
        ((tabWalkAux s i fuel v).2 = false ∧
          ∀ j, j < fuel → (s (i + j)).isSome = true) := by
  intro fuel
  induction fuel with
  | zero => intro i v; simp [tabWalkAux]
  | succ fuel ih =>
    intro i v
    cases heq : s i with
    | none =>
      rw [tabWalkAux_succ_none s i fuel v heq]
      dsimp only
      constructor
      · intro h; omega
      · rintro ⟨-, hall⟩
        have h0 := hall 0 (by omega)
        rw [Nat.add_zero, heq] at h0
        simp at h0
    | some target =>
      by_cases hg : v.any (fun item =>
          item.selector == target.selector && item.name == target.name) = true
      · rw [tabWalkAux_succ_pos s i fuel v target heq hg]
        dsimp only
        constructor
        · intro h; omega
        · rintro ⟨h, -⟩; exact absurd h (by simp)
      · rw [tabWalkAux_succ_neg s i fuel v target heq hg]
        have iha := ih (i + 1) (v ++ [target])
        simp only [List.length_append, List.length_singleton] at iha
        constructor
        · intro h
          obtain ⟨hf, hall⟩ := iha.mp (by omega)
          refine ⟨hf, ?_⟩
          intro j hj
          cases j with
          | zero => rw [Nat.add_zero, heq]; rfl
          | succ j =>
            have hj' := hall j (by omega)
            have e : i + (j + 1) = (i + 1) + j := by omega
            rw [e]; exact hj'
        · rintro ⟨hf, hall⟩
          have hall' : ∀ j, j < fuel → (s ((i + 1) + j)).isSome = true := by
            intro j hj
            have h1 := hall (j + 1) (by omega)
            have e : i + (j + 1) = (i + 1) + j := by omega
            rw [e] at h1; exact h1
          have := iha.mpr ⟨hf, hall'⟩
          omega

theorem tabWalkAux_cycle_spec (s : Nat → Option FocusTarget) :
    ∀ (fuel i : Nat) (v : List FocusTarget),
      (tabWalkAux s i fuel v).2 = true →
        ∃ t, s (i + ((tabWalkAux s i fuel v).1.length - v.length)) = some t ∧
          (tabWalkAux s i fuel v).1.any (fun item =>
            item.selector == t.selector && item.name == t.name) = true := by
  intro fuel
  induction fuel with
  | zero => intro i v h; simp [tabWalkAux] at h
  | succ fuel ih =>
    intro i v
    cases heq : s i with
    | none =>
      rw [tabWalkAux_succ_none s i fuel v heq]
      intro h; exact absurd h (by simp)
    | some target =>
      by_cases hg : v.any (fun item =>
          item.selector == target.selector && item.name == target.name) = true
      · rw [tabWalkAux_succ_pos s i fuel v target heq hg]
        intro _
        refine ⟨target, ?_, hg⟩
        dsimp only
        have e : v.length - v.length = 0 := by omega
        rw [e, Nat.add_zero]
        exact heq
      · rw [tabWalkAux_succ_neg s i fuel v target heq hg]
        intro h
        obtain ⟨t, h1, h2⟩ := ih (i + 1) (v ++ [target]) h
        refine ⟨t, ?_, h2⟩
        have hle := le_tabWalkAux_length s fuel (i + 1) (v ++ [target])
        simp only [List.length_append, List.length_singleton] at hle h1
        have e : i + ((tabWalkAux s (i + 1) fuel (v ++ [target])).1.length - v.length) =
            (i + 1) + ((tabWalkAux s (i + 1) fuel (v ++ [target])).1.length -
              (v.length + 1)) := by
          omega
        rw [e]
        exact h1

theorem tabWalkAux_flag_false (s : Nat → Option FocusTarget) :
    ∀ (fuel i : Nat) (v : List FocusTarget),
      (tabWalkAux s i fuel v).2 = false →
        (tabWalkAux s i fuel v).1.length = v.length + fuel ∨
          s (i + ((tabWalkAux s i fuel v).1.length - v.length)) = none := by
  intro fuel
  induction fuel with
  | zero => intro i v _; left; simp [tabWalkAux]
  | succ fuel ih =>
    intro i v
    cases heq : s i with
    | none =>
      rw [tabWalkAux_succ_none s i fuel v heq]
      intro _
      right
      dsimp only
      have e : v.length - v.length = 0 := by omega
      rw [e, Nat.add_zero]
      exact heq
    | some target =>
      by_cases hg : v.any (fun item =>
          item.selector == target.selector && item.name == target.name) = true
      · rw [tabWalkAux_succ_pos s i fuel v target heq hg]
        intro h; exact absurd h (by simp)
      · rw [tabWalkAux_succ_neg s i fuel v target heq hg]
        intro h
        rcases ih (i + 1) (v ++ [target]) h with h1 | h1
        · left
          simp only [List.length_append, List.length_singleton] at h1
          omega
        · right
          have hle := le_tabWalkAux_length s fuel (i + 1) (v ++ [target])
          simp only [List.length_append, List.length_singleton] at hle h1
          have e : i + ((tabWalkAux s (i + 1) fuel (v ++ [target])).1.length - v.length) =
              (i + 1) + ((tabWalkAux s (i + 1) fuel (v ++ [target])).1.length -
                (v.length + 1)) := by
            omega
          rw [e]
          exact h1

theorem tabWalkAux_pairwise (s : Nat → Option FocusTarget) :
    ∀ (fuel i : Nat) (v : List FocusTarget),
      List.Pairwise (fun a b => ¬(a.selector = b.selector ∧ a.name = b.name)) v →
      List.Pairwise (fun a b => ¬(a.selector = b.selector ∧ a.name = b.name))
        (tabWalkAux s i fuel v).1 := by
  intro fuel
  induction fuel with
  | zero => intro i v h; simpa [tabWalkAux] using h
  | succ fuel ih =>
    intro i v hv
    cases heq : s i with
    | none => rw [tabWalkAux_succ_none s i fuel v heq]; exact hv
    | some target =>
      by_cases hg : v.any (fun item =>
          item.selector == target.selector && item.name == target.name) = true
      · rw [tabWalkAux_succ_pos s i fuel v target heq hg]; exact hv
      · rw [tabWalkAux_succ_neg s i fuel v target heq hg]
        apply ih
        rw [List.pairwise_append]
        refine ⟨hv, by simp, ?_⟩
        intro a ha b hb
        simp only [List.mem_singleton] at hb
        subst hb
        intro hcontra
        apply hg
        rw [List.any_eq_true]
        exact ⟨a, ha, by simp [hcontra.1, hcontra.2]⟩

theorem tabWalkAux_mono (s : Nat → Option FocusTarget) :
    ∀ (m n i : Nat) (v : List FocusTarget), m ≤ n →
      (tabWalkAux s i m v).1.length < v.length + m →
      tabWalkAux s i n v = tabWalkAux s i m v := by
  intro m
  induction m with
  | zero =>
    intro n i v _ h2
    simp [tabWalkAux] at h2
  | succ m ih =>
    intro n i v h1 h2
    cases n with
    | zero => omega
    | succ n =>
      cases heq : s i with
      | none =>
        rw [tabWalkAux_succ_none s i n v heq, tabWalkAux_succ_none s i m v heq]
      | some target =>
        by_cases hg : v.any (fun item =>
            item.selector == target.selector && item.name == target.name) = true
        · rw [tabWalkAux_succ_pos s i n v target heq hg,
            tabWalkAux_succ_pos s i m v target heq hg]
        · rw [tabWalkAux_succ_neg s i n v target heq hg,
            tabWalkAux_succ_neg s i m v target heq hg]
          apply ih n (i + 1) (v ++ [target]) (by omega)
          rw [tabWalkAux_succ_neg s i m v target heq hg] at h2
          simp only [List.length_append, List.length_singleton]
          omega

/- ### Concrete pages used by witnesses -/

def ftA : FocusTarget :=
  { selector := "#a", tag := "a", role := none, name := some "Alpha",
    hasAccessibleName := true, htmlSnippet := "<a id=a>Alpha</a>" }

def ftB : FocusTarget :=
  { selector := "#b", tag := "a", role := none, name := some "Beta",
    hasAccessibleName := true, htmlSnippet := "<a id=b>Beta</a>" }

/-- A page whose focus order loops back to the first element after two
elements (scenario B of the spec). -/
def pmCyc : PageModel :=
  { tabStream := fun n => if n = 0 then some ftA else if n = 1 then some ftB else some ftA
    refocus := fun _ => false
    shiftStream := fun _ => none
    navError := none
    ariaCount := 0
    images := [] }

/-- A page with an unbounded supply of pairwise distinct focusable elements. -/
def pmFull : PageModel :=
  { tabStream := fun n =>
      some { selector := Nat.repr n, tag := "a", role := none, name := none,
             hasAccessibleName := false, htmlSnippet := "" }
    refocus := fun _ => false
    shiftStream := fun _ => none
    navError := none
    ariaCount := 0
    images := [] }

/-- Claim C1: the visited list of a forward walk never contains two entries
with the same (selector, name) pair, and `cycleDetected` is set exactly when
the walk stopped because the freshly extracted pair matched a previously
visited entry (which is then not appended: the repeat's pair occurs in
`visited` only as the earlier entry). -/
theorem tab_walk_cycle_detection (maxIters : Nat) (pm : PageModel) :
    List.Pairwise (fun a b => ¬(a.selector = b.selector ∧ a.name = b.name))
      (buildTabOrderReport maxIters pm).visited ∧
    ((buildTabOrderReport maxIters pm).cycleDetected = true ↔
      ((buildTabOrderReport maxIters pm).visited.length < maxIters ∧
        ∃ t, pm.tabStream (buildTabOrderReport maxIters pm).visited.length = some t ∧
          (buildTabOrderReport maxIters pm).visited.any (fun item =>
            item.selector == t.selector && item.name == t.name) = true)) := by
  simp only [buildTabOrderReport]
  constructor
  · exact tabWalkAux_pairwise pm.tabStream maxIters 0 [] (by simp)
  · constructor
    · intro h
      have hle := tabWalkAux_length_le pm.tabStream maxIters 0 []
      simp only [List.length_nil, Nat.zero_add] at hle
      have hlt : (tabWalkAux pm.tabStream 0 maxIters []).1.length < maxIters := by
        by_contra hcon
        have heq2 : (tabWalkAux pm.tabStream 0 maxIters []).1.length =
            List.length ([] : List FocusTarget) + maxIters := by
          simp only [List.length_nil, Nat.zero_add]; omega
        have hf := (tabWalkAux_length_eq_iff pm.tabStream maxIters 0 []).mp heq2
        rw [hf.1] at h
        cases h
      refine ⟨hlt, ?_⟩
      have hc := tabWalkAux_cycle_spec pm.tabStream maxIters 0 [] h
      simpa using hc
    · rintro ⟨hlt, t, hs, hany⟩
      by_contra hcon
      simp only [Bool.not_eq_true] at hcon
      rcases tabWalkAux_flag_false pm.tabStream maxIters 0 [] hcon with h1 | h1
      · simp only [List.length_nil, Nat.zero_add] at h1; omega
      · simp only [List.length_nil, Nat.zero_add, Nat.sub_zero] at h1
        rw [hs] at h1
        cases h1

/-- Witness for C1: the two-element looping page yields a duplicate-free
visited list, stops below the limit, and the repeated extraction matches a
visited entry. -/
theorem tab_walk_cycle_detection_witness :
    List.Pairwise (fun a b => ¬(a.selector = b.selector ∧ a.name = b.name))
      (buildTabOrderReport 10 pmCyc).visited ∧
    ((buildTabOrderReport 10 pmCyc).visited.length < 10 ∧
      ∃ t, pmCyc.tabStream (buildTabOrderReport 10 pmCyc).visited.length = some t ∧
        (buildTabOrderReport 10 pmCyc).visited.any (fun item =>
          item.selector == t.selector && item.name == t.name) = true) :=
  ⟨(tab_walk_cycle_detection 10 pmCyc).1,
   (tab_walk_cycle_detection 10 pmCyc).2.mp (by decide)⟩

/-- Claim C2: the walk visits at most `maxIters` elements, `limitReached`
holds iff the loop consumed every iteration without an early stop (no cycle
and every extraction present), and `limitReached` implies `cycleDetected` is
false. -/
theorem tab_walk_termination (maxIters : Nat) (pm : PageModel) :
    (buildTabOrderReport maxIters pm).visited.length ≤ maxIters ∧
    ((buildTabOrderReport maxIters pm).limitReached = true ↔
      ((buildTabOrderReport maxIters pm).cycleDetected = false ∧
        ∀ j, j < maxIters → (pm.tabStream j).isSome = true)) ∧
    ((buildTabOrderReport maxIters pm).limitReached = true →
      (buildTabOrderReport maxIters pm).cycleDetected = false) := by
  simp only [buildTabOrderReport]
  have hle := tabWalkAux_length_le pm.tabStream maxIters 0 []
  have hiff := tabWalkAux_length_eq_iff pm.tabStream maxIters 0 []
  simp only [List.length_nil, Nat.zero_add] at hle hiff
  refine ⟨hle, ?_, ?_⟩
  · constructor
    · intro h
      simp only [beq_iff_eq] at h
      exact hiff.mp h
    · rintro ⟨hf, hall⟩
      simp only [beq_iff_eq]
      exact hiff.mpr ⟨hf, hall⟩
  · intro h
    simp only [beq_iff_eq] at h
    exact (hiff.mp h).1

/-- Witness for C2: a page with three distinct focusable elements and limit 3
reaches the limit, so the characterization applies with all hypotheses
concrete. -/
theorem tab_walk_termination_witness :
    (buildTabOrderReport 3 pmFull).visited.length ≤ 3 ∧
    ((buildTabOrderReport 3 pmFull).cycleDetected = false ∧
      ∀ j, j < 3 → (pmFull.tabStream j).isSome = true) :=
  ⟨(tab_walk_termination 3 pmFull).1,
   (tab_walk_termination 3 pmFull).2.1.mp (by decide)⟩

/- ### Lemmas about the reverse walk -/

theorem verifyLoop_succ_none (s : Nat → Option FocusTarget) (v : List FocusTarget)
    (i k : Nat) (heq : s k = none) :
    verifyLoop s v (i + 1) k = false := by
  simp [verifyLoop, heq]

theorem verifyLoop_succ_noexp (s : Nat → Option FocusTarget) (v : List FocusTarget)
    (i k : Nat) (t : FocusTarget) (heq : s k = some t) (he : v.get? i = none) :
    verifyLoop s v (i + 1) k = false := by
  have he' : v[i]? = none := by rw [← List.get?_eq_getElem?]; exact he
  simp [verifyLoop, heq, he']

theorem verifyLoop_succ_match (s : Nat → Option FocusTarget) (v : List FocusTarget)
    (i k : Nat) (t e : FocusTarget) (heq : s k = some t) (he : v.get? i = some e)
    (hm : (t.selector == e.selector && t.name == e.name) = true) :
    verifyLoop s v (i + 1) k = verifyLoop s v i (k + 1) := by
  have he' : v[i]? = some e := by rw [← List.get?_eq_getElem?]; exact he
  have h1 : t.selector = e.selector := by
    have := (Bool.and_eq_true _ _).mp hm
    exact beq_iff_eq.mp this.1
  have h2 : t.name = e.name := by
    have := (Bool.and_eq_true _ _).mp hm
    exact beq_iff_eq.mp this.2
  simp [verifyLoop, heq, he', h1, h2]

theorem verifyLoop_succ_mismatch (s : Nat → Option FocusTarget) (v : List FocusTarget)
    (i k : Nat) (t e : FocusTarget) (heq : s k = some t) (he : v.get? i = some e)
    (hm : ¬ (t.selector == e.selector && t.name == e.name) = true) :
    verifyLoop s v (i + 1) k = false := by
  have he' : v[i]? = some e := by rw [← List.get?_eq_getElem?]; exact he
  have hm' : ¬(t.selector = e.selector ∧ t.name = e.name) := by
    intro hc
    exact hm (by simp [hc.1, hc.2])
  rcases not_and_or.mp hm' with hd | hd <;> simp [verifyLoop, heq, he', hd]

theorem verifyLoop_true_iff (s : Nat → Option FocusTarget) (v : List FocusTarget) :
    ∀ (i k : Nat), verifyLoop s v i k = true ↔
      ∀ j, j < i → ∃ t e, s (k + j) = some t ∧ v.get? (i - 1 - j) = some e ∧
        (t.selector == e.selector && t.name == e.name) = true := by
  intro i
  induction i with
  | zero => intro k; simp [verifyLoop]
  | succ i ih =>
    intro k
    cases heq : s k with
    | none =>
      rw [verifyLoop_succ_none s v i k heq]
      constructor
      · intro h; cases h
      · intro hall
        obtain ⟨t, e, h1, h2, h3⟩ := hall 0 (by omega)
        rw [Nat.add_zero, heq] at h1
        cases h1
    | some t =>
      cases he : v.get? i with
      | none =>
        rw [verifyLoop_succ_noexp s v i k t heq he]
        constructor
        · intro h; cases h
        · intro hall
          obtain ⟨t', e, h1, h2, h3⟩ := hall 0 (by omega)
          have earith : i + 1 - 1 - 0 = i := by omega
          rw [earith, he] at h2
          cases h2
      | some e =>
        by_cases hm : (t.selector == e.selector && t.name == e.name) = true
        · rw [verifyLoop_succ_match s v i k t e heq he hm, ih (k + 1)]
          constructor
          · intro hall j hj
            cases j with
            | zero =>
              refine ⟨t, e, ?_, ?_, hm⟩
              · rw [Nat.add_zero]; exact heq
              · have earith : i + 1 - 1 - 0 = i := by omega
                rw [earith]; exact he
            | succ j =>
              obtain ⟨t', e', h1, h2, h3⟩ := hall j (by omega)
              refine ⟨t', e', ?_, ?_, h3⟩
              · have earith : k + (j + 1) = (k + 1) + j := by omega
                rw [earith]; exact h1
              · have earith : i + 1 - 1 - (j + 1) = i - 1 - j := by omega
                rw [earith]; exact h2
          · intro hall j hj
            obtain ⟨t', e', h1, h2, h3⟩ := hall (j + 1) (by omega)
            refine ⟨t', e', ?_, ?_, h3⟩
            · have earith : (k + 1) + j = k + (j + 1) := by omega
              rw [earith]; exact h1
            · have earith : i - 1 - j = i + 1 - 1 - (j + 1) := by omega
              rw [earith]; exact h2
        · rw [verifyLoop_succ_mismatch s v i k t e heq he hm]
          constructor
          · intro h; cases h
          · intro hall
            obtain ⟨t', e', h1, h2, h3⟩ := hall 0 (by omega)
            rw [Nat.add_zero, heq] at h1
            injection h1 with hh
            subst hh
            have earith : i + 1 - 1 - 0 = i := by omega
            rw [earith, he] at h2
            injection h2 with hh2
            subst hh2
            exact absurd h3 hm

def revRefocus : String → Bool := fun sel => sel == "#b"

def revStream : Nat → Option FocusTarget := fun _ => some ftA

def revVisited : List FocusTarget := [ftA, ftB]

/-- Claim C3: the Reverse-Order Verifier returns `none` iff fewer than two
entries were visited or re-focusing the last entry's selector fails; given at
least two entries and a successful re-focus, it returns `true` iff every
Shift+Tab step matches the expected predecessor exactly, and `false` iff some
step yields an absent extraction or a mismatching (selector, name) pair. -/
theorem verify_shift_tab_tristate (r : String → Bool) (s : Nat → Option FocusTarget)
    (v : List FocusTarget) :
    (verifyShiftTab r s v = none ↔
      (v.length ≤ 1 ∨
        ∃ last, v.get? (v.length - 1) = some last ∧ r last.selector = false)) ∧
    (verifyShiftTab r s v = some true ↔
      (2 ≤ v.length ∧
        (∃ last, v.get? (v.length - 1) = some last ∧ r last.selector = true) ∧
        ∀ k, k < v.length - 1 → ∃ t e, s k = some t ∧
          v.get? (v.length - 2 - k) = some e ∧
          (t.selector == e.selector && t.name == e.name) = true)) ∧
    (verifyShiftTab r s v = some false ↔
      (2 ≤ v.length ∧
        (∃ last, v.get? (v.length - 1) = some last ∧ r last.selector = true) ∧
        ¬ ∀ k, k < v.length - 1 → ∃ t e, s k = some t ∧
          v.get? (v.length - 2 - k) = some e ∧
          (t.selector == e.selector && t.name == e.name) = true)) := by
  by_cases hlen : v.length ≤ 1
  · have hres : verifyShiftTab r s v = none := by simp [verifyShiftTab, hlen]
    rw [hres]
    refine ⟨?_, ?_, ?_⟩
    · simp [hlen]
    · constructor
      · intro h; cases h
      · rintro ⟨h2, -, -⟩; omega
    · constructor
      · intro h; cases h
      · rintro ⟨h2, -, -⟩; omega
  · have hlen2 : 2 ≤ v.length := by omega
    cases hlast : v.get? (v.length - 1) with
    | none =>
      exfalso
      rw [List.get?_eq_none] at hlast
      omega
    | some last =>
      have hlast2 : v[v.length - 1]? = some last := by
        rw [← List.get?_eq_getElem?]; exact hlast
      have hres : verifyShiftTab r s v =
          (if r last.selector then some (verifyLoop s v (v.length - 1) 0) else none) := by
        simp [verifyShiftTab, hlen, hlast2]
      rw [hres]
      by_cases hr : r last.selector = true
      · rw [if_pos hr]
        refine ⟨?_, ?_, ?_⟩
        · constructor
          · intro h; cases h
          · rintro (h | ⟨last', hl', hr'⟩)
            · omega
            · injection hl' with hh
              subst hh
              rw [hr] at hr'
              cases hr'
        · constructor
          · intro h
            have hv : verifyLoop s v (v.length - 1) 0 = true := by injection h
            refine ⟨hlen2, ⟨last, rfl, hr⟩, ?_⟩
            intro k hk
            obtain ⟨t, e, h1, h2, h3⟩ :=
              (verifyLoop_true_iff s v (v.length - 1) 0).mp hv k (by omega)
            refine ⟨t, e, ?_, ?_, h3⟩
            · rw [Nat.zero_add] at h1; exact h1
            · have earith : v.length - 1 - 1 - k = v.length - 2 - k := by omega
              rw [earith] at h2; exact h2
          · rintro ⟨h1, -, hall⟩
            have hv : verifyLoop s v (v.length - 1) 0 = true := by
              rw [verifyLoop_true_iff]
              intro j hj
              obtain ⟨t, e, ha, hb, hc⟩ := hall j (by omega)
              refine ⟨t, e, ?_, ?_, hc⟩
              · rw [Nat.zero_add]; exact ha
              · have earith : v.length - 1 - 1 - j = v.length - 2 - j := by omega
                rw [earith]; exact hb
            rw [hv]
        · constructor
          · intro h
            have hv : verifyLoop s v (v.length - 1) 0 = false := by injection h
            refine ⟨hlen2, ⟨last, rfl, hr⟩, ?_⟩
            intro hall
            have hv' : verifyLoop s v (v.length - 1) 0 = true := by
              rw [verifyLoop_true_iff]
              intro j hj
              obtain ⟨t, e, ha, hb, hc⟩ := hall j (by omega)
              refine ⟨t, e, ?_, ?_, hc⟩
              · rw [Nat.zero_add]; exact ha
              · have earith : v.length - 1 - 1 - j = v.length - 2 - j := by omega
                rw [earith]; exact hb
            rw [hv'] at hv
            cases hv
          · rintro ⟨h1, -, hnall⟩
            cases hv : verifyLoop s v (v.length - 1) 0 with
            | false => rfl
            | true =>
              exfalso
              apply hnall
              intro k hk
              obtain ⟨t, e, ha, hb, hc⟩ :=
                (verifyLoop_true_iff s v (v.length - 1) 0).mp hv k (by omega)
              refine ⟨t, e, ?_, ?_, hc⟩
              · rw [Nat.zero_add] at ha; exact ha
              · have earith : v.length - 1 - 1 - k = v.length - 2 - k := by omega
                rw [earith] at hb; exact hb
      · rw [if_neg hr]
        simp only [Bool.not_eq_true] at hr
        refine ⟨?_, ?_, ?_⟩
        · constructor
          · intro _; right; exact ⟨last, rfl, hr⟩
          · intro _; rfl
        · constructor
          · intro h; cases h
          · rintro ⟨-, ⟨last', hl', hr'⟩, -⟩
            injection hl' with hh
            subst hh
            rw [hr] at hr'
            cases hr'
        · constructor
          · intro h; cases h
          · rintro ⟨-, ⟨last', hl', hr'⟩, -⟩
            injection hl' with hh
            subst hh
            rw [hr] at hr'
            cases hr'

/-- Witness for C3: on the two-element visited list whose last selector
re-focuses successfully and whose single Shift+Tab step matches, the verifier
characterization instantiates with every hypothesis concrete. -/
theorem verify_shift_tab_tristate_witness :
    2 ≤ revVisited.length ∧
    (∃ last, revVisited.get? (revVisited.length - 1) = some last ∧
      revRefocus last.selector = true) ∧
    ∀ k, k < revVisited.length - 1 → ∃ t e, revStream k = some t ∧
      revVisited.get? (revVisited.length - 2 - k) = some e ∧
      (t.selector == e.selector && t.name == e.name) = true :=
  (verify_shift_tab_tristate revRefocus revStream revVisited).2.1.mp (by decide)

/-- A page supplying 31 pairwise distinct focusable elements and then
exhausting: the 30-iteration walk hits its limit while the 100-iteration walk
exhausts naturally, so the two reports differ. -/
def pmCex : PageModel :=
  { tabStream := fun n =>
      if n < 31 then
        some { selector := Nat.repr n, tag := "a", role := none, name := none,
               hasAccessibleName := false, htmlSnippet := "" }
      else none
    refocus := fun _ => false
    shiftStream := fun _ => none
    navError := none
    ariaCount := 0
    images := [] }

/-- A page that exhausts after one element, where both limits agree. -/
def pmShort : PageModel :=
  { tabStream := fun n => if n = 0 then some ftA else none
    refocus := fun _ => false
    shiftStream := fun _ => none
    navError := none
    ariaCount := 0
    images := [] }

/-- Claim C4 counterexample: the two walk implementations do NOT use a single
configured iteration limit (`src/actions.ts` uses 30, the route uses 100 from
`src/lib/accessibility-types.ts`), and on a page with 31 distinct focusable
elements they produce different `TabOrderReport`s. -/
theorem tab_iteration_limits_counterexample :
    MAX_TAB_ITERATIONS_actions ≠ MAX_TAB_ITERATIONS ∧
    buildTabOrderReport MAX_TAB_ITERATIONS_actions pmCex ≠
      buildTabOrderReport MAX_TAB_ITERATIONS pmCex := by
  decide

/-- Claim C4 amended: the two implementations use different limits (30 in
`src/actions.ts`, 100 in `src/lib/accessibility-types.ts`); over the same
page behaviour they produce equal `TabOrderReport`s whenever the
30-iteration walk stops early (its `limitReached` is false). -/
theorem tab_iteration_limits_amended :
    MAX_TAB_ITERATIONS_actions = 30 ∧ MAX_TAB_ITERATIONS = 100 ∧
    ∀ pm : PageModel,
      (buildTabOrderReport MAX_TAB_ITERATIONS_actions pm).limitReached = false →
      buildTabOrderReport MAX_TAB_ITERATIONS_actions pm =
        buildTabOrderReport MAX_TAB_ITERATIONS pm := by
  refine ⟨rfl, rfl, ?_⟩
  intro pm h
  simp only [buildTabOrderReport, MAX_TAB_ITERATIONS, MAX_TAB_ITERATIONS_actions] at h ⊢
  have hne : (tabWalkAux pm.tabStream 0 30 []).1.length ≠ 30 := by
    intro hc
    rw [hc] at h
    simp at h
  have hle := tabWalkAux_length_le pm.tabStream 30 0 []
  simp only [List.length_nil, Nat.zero_add] at hle
  have hlt : (tabWalkAux pm.tabStream 0 30 []).1.length < 30 := by omega
  have hmono := tabWalkAux_mono pm.tabStream 30 100 0 [] (by omega) (by simpa using hlt)
  rw [hmono]
  have h100 : ((tabWalkAux pm.tabStream 0 30 []).1.length == 100) = false := by
    simp only [beq_eq_false_iff_ne]
    omega
  have h30 : ((tabWalkAux pm.tabStream 0 30 []).1.length == 30) = false := by
    simp only [beq_eq_false_iff_ne]
    omega
  rw [h30, h100]

/-- Witness for amended C4: on a page exhausting after one element, the two
limits give the same report. -/
theorem tab_iteration_limits_amended_witness :
    buildTabOrderReport MAX_TAB_ITERATIONS_actions pmShort =
      buildTabOrderReport MAX_TAB_ITERATIONS pmShort :=
  tab_iteration_limits_amended.2.2 pmShort (by decide)

/- ### Accessible-Name Resolver (`deriveAccessibleName`) -/

/-- JS `String.prototype.split` with a whitespace-run pattern, on the
character sequence: tokens are maximal whitespace-free runs; a leading
(resp. trailing) whitespace run produces a leading (resp. trailing) empty
token, and splitting the empty string yields one empty token. -/
def jsSplitWsAux : List Char → List Char → List String
  | [], acc => [String.mk acc.reverse]
  | c :: cs, acc =>
    if c.isWhitespace then
      String.mk acc.reverse :: jsSplitWsAux (cs.dropWhile Char.isWhitespace) []
    else
      jsSplitWsAux cs (c :: acc)
termination_by l _ => l.length
decreasing_by
  · simp_wf
    have := (List.dropWhile_suffix (l := cs) Char.isWhitespace).length_le
    omega
  · simp_wf

def jsSplitWs (s : String) : List String :=
  jsSplitWsAux s.toList []

/-- JS `String.prototype.trim` on the character sequence: drop whitespace
from both ends. -/
def jsTrim (s : String) : String :=
  String.mk (((s.toList.dropWhile Char.isWhitespace).reverse.dropWhile
    Char.isWhitespace).reverse)

/-- The recurring TypeScript guard `x && x.trim().length > 0` followed by
`return x.trim()`: yields the trimmed value when the attribute is present and
non-empty after trimming. -/
def nonEmptyTrim : Option String → Option String
  | none => none
  | some s => if 0 < (jsTrim s).length then some (jsTrim s) else none

/-- The `aria-labelledby` branch: split the attribute into id tokens, resolve
each id to its element's text content (`doc id = none` when no element has
that id), trim each, join with single spaces, use if non-empty after
trimming.  The TypeScript `if (labelledBy)` guard skips the block for the
empty string. -/
def labelledByName (doc : String → Option String) : Option String → Option String
  | none => none
  | some lby =>
    if lby = "" then none
    else
      let text := jsTrim (String.intercalate " "
        (((jsSplitWs lby).filterMap doc).map jsTrim))
      if 0 < text.length then some text else none

/-- A DOM element as read by `deriveAccessibleName`: the attributes it
consults (`getAttribute` results), the two `instanceof` tests, and the
element's text content. -/
structure Elem where
  ariaLabel : Option String
  ariaLabelledBy : Option String
  title : Option String
  alt : Option String
  placeholder : Option String
  nameAttr : Option String
  isImage : Bool
  isTextInput : Bool
  textContent : Option String
deriving Repr

/-- `deriveAccessibleName` from the source: the strict priority chain
aria-label, aria-labelledby, title, alt (images only), placeholder then name
(text inputs only), own text content, else no name. -/
def deriveAccessibleName (doc : String → Option String) (el : Elem) : Option String :=
  nonEmptyTrim el.ariaLabel <|>
  labelledByName doc el.ariaLabelledBy <|>
  nonEmptyTrim el.title <|>
  (if el.isImage then nonEmptyTrim el.alt else none) <|>
  (if el.isTextInput then nonEmptyTrim el.placeholder <|> nonEmptyTrim el.nameAttr
   else none) <|>
  nonEmptyTrim el.textContent

/-- Claim C5: when `aria-label` is present and non-empty after trimming, the
resolver returns exactly its trimmed value, for every document and every
combination of the element's other attributes. -/
theorem aria_label_priority (doc : String → Option String) (el : Elem) (l : String)
    (h1 : el.ariaLabel = some l) (h2 : 0 < (jsTrim l).length) :
    deriveAccessibleName doc el = some (jsTrim l) := by
  simp [deriveAccessibleName, nonEmptyTrim, h1, h2]

def docW : String → Option String := fun _ => some "Ref"

/-- An element carrying every other name source at once. -/
def elW : Elem :=
  { ariaLabel := some " Close ", ariaLabelledBy := some "x y", title := some "Title",
    alt := some "Alt", placeholder := some "Hint", nameAttr := some "field",
    isImage := false, isTextInput := true, textContent := some "Text" }

/-- Witness for C5: with aria-label " Close " and every other source
populated, the resolver returns "Close". -/
theorem aria_label_priority_witness :
    deriveAccessibleName docW elW = some "Close" :=
  (aria_label_priority docW elW " Close " rfl (by decide)).trans (by decide)

/- ### Selector Synthesizer (`buildSelector`) -/

/-- The character class of the regex in the source cssEscape helper: the
space character and the ASCII punctuation at character codes 33–44, 46–47,
58–64, 91–94, 96 and 123–126. -/
def isCssEscapable (c : Char) : Bool :=
  let n := c.toNat
  (decide (32 ≤ n) && decide (n ≤ 44)) || decide (n = 46) || decide (n = 47) ||
  (decide (58 ≤ n) && decide (n ≤ 64)) || (decide (91 ≤ n) && decide (n ≤ 94)) ||
  decide (n = 96) || (decide (123 ≤ n) && decide (n ≤ 126))

/-- `cssEscape` from the source: backslash-escape every character of the
class above. -/
def cssEscape (value : String) : String :=
  String.mk (value.toList.flatMap (fun c => if isCssEscapable c then ['\\', c] else [c]))

/-- JS `String.prototype.toLowerCase` on the character sequence. -/
def jsToLower (s : String) : String :=
  String.mk (s.toList.map Char.toLower)

/-- One level of the upward walk in `buildSelector`: the DOM `tagName` (as
the DOM reports it), the class list in order, the `tagName`s of all children
of the parent in document order (empty when there is no parent element), and
the position of this element among those children.  `posInParent` stands in
for the reference identity that `siblings.indexOf(current)` uses. -/
structure SelLevel where
  tagName : String
  classList : List String
  siblingTags : List String
  posInParent : Nat
deriving DecidableEq, Repr

/-- The tag-plus-classes part of one path fragment. -/
def levelBase (lv : SelLevel) : String :=
  let base := jsToLower lv.tagName
  if lv.classList.length ≠ 0 then
    base ++ "." ++ String.intercalate "." (lv.classList.map cssEscape)
  else
    base

/-- `siblings.indexOf(current) + 1` where `siblings` is the parent's children
filtered to the same `tagName`: one plus the number of same-tag children
strictly before this element. -/
def nthIndex (lv : SelLevel) : Nat :=
  (lv.siblingTags.take lv.posInParent).countP (fun t => t == lv.tagName) + 1

/-- One fragment of the selector path: lowercase tag, dot-joined escaped
classes, and a 1-based :nth-of-type index exactly when more than one child of
the parent shares the tag. -/
def levelSelector (lv : SelLevel) : String :=
  let base := levelBase lv
  if 1 < lv.siblingTags.countP (fun t => t == lv.tagName) then
    base ++ ":nth-of-type(" ++ Nat.repr (nthIndex lv) ++ ")"
  else
    base

/-- The while loop of `buildSelector`: at most 4 levels starting at the
element itself, fragments accumulated with `unshift` (outermost first). -/
def selectorPath (chain : List SelLevel) : List String :=
  ((chain.take 4).map levelSelector).reverse

/-- `buildSelector` from the source: a non-empty id short-circuits to the
escaped id selector; otherwise the at-most-4-segment path joined by " > ".
`chain` is the element followed by its ancestor levels, innermost first. -/
def buildSelector (id : String) (chain : List SelLevel) : String :=
  if id ≠ "" then
    "#" ++ cssEscape id
  else
    String.intercalate " > " (selectorPath chain)

/-- Claim C6: a non-empty id yields exactly the escaped id selector,
independent of ancestry; without an id the selector is a path of at most 4
segments joined by " > ", each segment being the lowercase tag name with
dot-joined escaped classes and an :nth-of-type index exactly when the element
has more than one same-tag sibling under the same parent. -/
theorem build_selector_spec :
    (∀ (id : String) (chain chain' : List SelLevel), id ≠ "" →
      buildSelector id chain = "#" ++ cssEscape id ∧
      buildSelector id chain = buildSelector id chain') ∧
    (∀ chain : List SelLevel,
      buildSelector "" chain = String.intercalate " > " (selectorPath chain) ∧
      (selectorPath chain).length ≤ 4) ∧
    (∀ lv : SelLevel,
      (¬ 1 < lv.siblingTags.countP (fun t => t == lv.tagName) →
        levelSelector lv = levelBase lv) ∧
      (1 < lv.siblingTags.countP (fun t => t == lv.tagName) →
        levelSelector lv = levelBase lv ++ ":nth-of-type(" ++
          Nat.repr ((lv.siblingTags.take lv.posInParent).countP
            (fun t => t == lv.tagName) + 1) ++ ")")) := by
  refine ⟨?_, ?_, ?_⟩
  · intro id chain chain' h
    constructor
    · simp [buildSelector, h]
    · simp [buildSelector, h]
  · intro chain
    constructor
    · simp [buildSelector]
    · have h1 : (selectorPath chain).length = min 4 chain.length := by
        simp [selectorPath, List.length_take]
      rw [h1]
      exact Nat.min_le_left 4 chain.length
  · intro lv
    constructor
    · intro h
      simp [levelSelector, h]
    · intro h
      simp [levelSelector, nthIndex, h]

/-- A list item with two classes sitting second among three same-tag
siblings. -/
def lvW : SelLevel :=
  { tagName := "LI", classList := ["item", "sel ect"],
    siblingTags := ["LI", "LI", "LI"], posInParent := 1 }

/-- Witness for C6: a concrete id wins over ancestry, and the sibling level
gets its :nth-of-type index. -/
theorem build_selector_spec_witness :
    buildSelector "menu" [lvW] = "#" ++ cssEscape "menu" ∧
    buildSelector "menu" [lvW] = buildSelector "menu" [] ∧
    levelSelector lvW = levelBase lvW ++ ":nth-of-type(" ++
      Nat.repr ((lvW.siblingTags.take lvW.posInParent).countP
        (fun t => t == lvW.tagName) + 1) ++ ")" :=
  ⟨(build_selector_spec.1 "menu" [lvW] [] (by decide)).1,
   (build_selector_spec.1 "menu" [lvW] [] (by decide)).2,
   (build_selector_spec.2.2 lvW).2 (by decide)⟩

/- ### Static ARIA/Alt-Text Scanner (`getAriaReport`) -/

/-- JS truthiness of a `getAttribute` result: false for an absent attribute
and for the empty string. -/
def attrTruthy : Option String → Bool
  | none => false
  | some s => !(s == "")

/-- The filter of the source: alt absent, or alt empty after trimming while
`getAttribute("role")` is falsy. -/
def imgMissingAlt (img : ImgNode) : Bool :=
  match img.alt with
  | none => true
  | some alt =>
    if (jsTrim alt).length == 0 && !attrTruthy img.role then true else false

/-- The predicate exactly as the claim words it: alt absent, or present but
empty after trimming while the image has NO role attribute. -/
def imgMissingAltClaim (img : ImgNode) : Bool :=
  match img.alt with
  | none => true
  | some alt => (jsTrim alt).length == 0 && img.role == none

/-- The amended predicate: alt absent, or present but empty after trimming
while the role attribute is absent or empty. -/
def imgMissingAltAmended (img : ImgNode) : Bool :=
  match img.alt with
  | none => true
  | some alt =>
    (jsTrim alt).length == 0 && (img.role == none || img.role == some "")

def imgDescriptor (img : ImgNode) : AriaImage :=
  { src := img.src, snippet := strTake img.outerHTML 160 }

/-- The `imagesMissingAlt` computation of `getAriaReport`: filter, cap at the
first 20, project to src and snippet. -/
def imagesMissingAlt (images : List ImgNode) : List AriaImage :=
  ((images.filter imgMissingAlt).take 20).map imgDescriptor

/-- `getAriaReport` from the source, over the page oracle's static DOM data. -/
def getAriaReport (ariaCount : Nat) (images : List ImgNode) : AriaReport :=
  { ariaAttributeCount := ariaCount, imagesMissingAlt := imagesMissingAlt images }

/-- An image with an empty alt and an empty-but-present role attribute. -/
def imgRoleEmpty : ImgNode :=
  { alt := some "", role := some "", src := some "decor.png",
    outerHTML := "<img src=decor.png alt= role=>" }

/-- Claim C7 counterexample: per the claim an image whose role attribute is
present (here the empty string) with empty alt must not be flagged, but the
scanner flags it, because JS truthiness treats the empty role string like an
absent attribute. -/
theorem images_missing_alt_counterexample :
    imgMissingAltClaim imgRoleEmpty = false ∧
    imagesMissingAlt [imgRoleEmpty] =
      [{ src := some "decor.png", snippet := "<img src=decor.png alt= role=>" }] := by
  decide

/-- Claim C7 amended: `imagesMissingAlt` consists of exactly the first at
most 20 images, in document order, whose alt is absent or empty after
trimming while the role attribute is absent or empty; each entry carries the
src attribute and an at-most-160-character snippet, and an image with a
non-empty trimmed alt is never flagged. -/
theorem images_missing_alt_amended (images : List ImgNode) :
    imagesMissingAlt images =
      ((images.filter imgMissingAltAmended).take 20).map imgDescriptor ∧
    (imagesMissingAlt images).length ≤ 20 ∧
    (∀ entry ∈ imagesMissingAlt images, entry.snippet.length ≤ 160) ∧
    (∀ img : ImgNode, (∃ a, img.alt = some a ∧ 0 < (jsTrim a).length) →
      imgMissingAlt img = false) := by
  refine ⟨?_, ?_, ?_, ?_⟩
  · have heq : images.filter imgMissingAlt = images.filter imgMissingAltAmended := by
      apply List.filter_congr
      intro img _
      cases halt : img.alt with
      | none => simp [imgMissingAlt, imgMissingAltAmended, halt]
      | some a =>
        cases hrole : img.role with
        | none =>
          simp [imgMissingAlt, imgMissingAltAmended, halt, hrole, attrTruthy,
            beq_eq_decide]
        | some r =>
          by_cases hr : r = ""
          · subst hr
            simp [imgMissingAlt, imgMissingAltAmended, halt, hrole, attrTruthy,
              beq_eq_decide]
          · simp [imgMissingAlt, imgMissingAltAmended, halt, hrole, attrTruthy, hr]
    unfold imagesMissingAlt
    rw [heq]
  · have h0 : (imagesMissingAlt images).length =
        ((images.filter imgMissingAlt).take 20).length := by
      simp [imagesMissingAlt]
    rw [h0, List.length_take]
    exact Nat.min_le_left _ _
  · intro entry hmem
    unfold imagesMissingAlt at hmem
    rw [List.mem_map] at hmem
    obtain ⟨img, -, rfl⟩ := hmem
    show (strTake img.outerHTML 160).length ≤ 160
    have h0 : (strTake img.outerHTML 160).length =
        (img.outerHTML.toList.take 160).length := rfl
    rw [h0, List.length_take]
    exact Nat.min_le_left _ _
  · rintro img ⟨a, ha, hpos⟩
    have hz : ((jsTrim a).length == 0) = false := by
      rw [beq_eq_false_iff_ne]
      omega
    simp [imgMissingAlt, ha, hz]

/-- The scenario-D image with a meaningful alt text. -/
def imgLogo : ImgNode :=
  { alt := some "logo", role := none, src := some "b.png",
    outerHTML := "<img src=b.png alt=logo>" }

/-- Witness for amended C7: an image with alt "logo" is never flagged. -/
theorem images_missing_alt_amended_witness :
    imgMissingAlt imgLogo = false :=
  (images_missing_alt_amended [imgLogo]).2.2.2 imgLogo ⟨"logo", rfl, by decide⟩

/- ### URL normalization and the top-level check pipeline -/

/-- The test of the anchored case-insensitive scheme regex in `normalizeUrl`:
a case-insensitive http:// or https:// prefix. -/
def httpPrefixTest (s : String) : Bool :=
  let l := s.toList.map Char.toLower
  List.isPrefixOf "http://".toList l || List.isPrefixOf "https://".toList l

/-- `normalizeUrl` from `src/lib/accessibility-types.ts` (identical in
`src/actions.ts`): return inputs that already carry a scheme unchanged,
otherwise prepend https://. -/
def normalizeUrl (input : String) : String :=
  if httpPrefixTest input then input else "https://" ++ input

/-- The request input: either an unparseable body (route only) or a payload
whose url field may be absent. -/
inductive CheckInput where
  | badPayload : CheckInput
  | payload : Option String → CheckInput
deriving DecidableEq, Repr

/-- The check pipeline of the route handler (`POST` in
`src/app/api/check/route.ts`; `checkAccessibilityAction` in `src/actions.ts`
is the same shape without the badPayload branch and with the smaller
iteration limit): validate the url, then either report the navigation error
or assemble the two reports. -/
def checkAccessibility (input : CheckInput) (pm : PageModel) : AccessibilityCheckState :=
  match input with
  | .badPayload =>
    { ok := false, summary := "Invalid request payload.", url := none,
      tabOrder := none, aria := none,
      errors := some ["Expected JSON body with a url field."] }
  | .payload u =>
    let rawUrl := jsTrim (u.getD "")
    if rawUrl = "" then
      { ok := false, summary := "Please provide a URL to check.", url := none,
        tabOrder := none, aria := none, errors := some ["Missing URL"] }
    else
      let normalizedUrl := normalizeUrl rawUrl
      match pm.navError with
      | some msg =>
        { ok := false,
          summary := "Unable to complete accessibility check for " ++ normalizedUrl,
          url := some normalizedUrl, tabOrder := none, aria := none,
          errors := some [msg] }
      | none =>
        { ok := true,
          summary := "Accessibility quick-check completed for " ++ normalizedUrl,
          url := some normalizedUrl,
          tabOrder := some (buildTabOrderReport MAX_TAB_ITERATIONS pm),
          aria := some (getAriaReport pm.ariaCount pm.images),
          errors := none }

/-- Claim C8: every returned state is either a success with both reports
populated and no errors, or a failure with at least one error message and
neither report, never a mixture. -/
theorem check_state_shape (input : CheckInput) (pm : PageModel) :
    ((checkAccessibility input pm).ok = true ∧
      (checkAccessibility input pm).tabOrder.isSome = true ∧
      (checkAccessibility input pm).aria.isSome = true ∧
      (checkAccessibility input pm).errors = none) ∨
    ((checkAccessibility input pm).ok = false ∧
      (checkAccessibility input pm).tabOrder = none ∧
      (checkAccessibility input pm).aria = none ∧
      ∃ es, (checkAccessibility input pm).errors = some es ∧ 1 ≤ es.length) := by
  cases input with
  | badPayload =>
    right
    exact ⟨rfl, rfl, rfl, ["Expected JSON body with a url field."], rfl, by simp⟩
  | payload u =>
    by_cases hr : jsTrim (u.getD "") = ""
    · right
      have hres : checkAccessibility (.payload u) pm =
          { ok := false, summary := "Please provide a URL to check.", url := none,
            tabOrder := none, aria := none, errors := some ["Missing URL"] } := by
        simp [checkAccessibility, hr]
      rw [hres]
      exact ⟨rfl, rfl, rfl, ["Missing URL"], rfl, by simp⟩
    · cases hnav : pm.navError with
      | some msg =>
        right
        have hres : checkAccessibility (.payload u) pm =
            { ok := false,
              summary := "Unable to complete accessibility check for " ++
                normalizeUrl (jsTrim (u.getD "")),
              url := some (normalizeUrl (jsTrim (u.getD ""))), tabOrder := none,
              aria := none, errors := some [msg] } := by
          simp [checkAccessibility, hr, hnav]
        rw [hres]
        exact ⟨rfl, rfl, rfl, [msg], rfl, by simp⟩
      | none =>
        left
        have hres : checkAccessibility (.payload u) pm =
            { ok := true,
              summary := "Accessibility quick-check completed for " ++
                normalizeUrl (jsTrim (u.getD "")),
              url := some (normalizeUrl (jsTrim (u.getD ""))),
              tabOrder := some (buildTabOrderReport MAX_TAB_ITERATIONS pm),
              aria := some (getAriaReport pm.ariaCount pm.images),
              errors := none } := by
          simp [checkAccessibility, hr, hnav]
        rw [hres]
        exact ⟨rfl, rfl, rfl, rfl⟩

/-- Claim C9: a missing, empty or whitespace-only url is rejected with
exactly the error list ["Missing URL"], and the result does not depend on
the page oracle at all: no browser session is consulted. -/
theorem missing_url_rejected (u : Option String) (pm : PageModel)
    (h : jsTrim (u.getD "") = "") :
    (checkAccessibility (.payload u) pm).ok = false ∧
    (checkAccessibility (.payload u) pm).errors = some ["Missing URL"] ∧
    ∀ pm' : PageModel,
      checkAccessibility (.payload u) pm = checkAccessibility (.payload u) pm' := by
  have hres : ∀ q : PageModel, checkAccessibility (.payload u) q =
      { ok := false, summary := "Please provide a URL to check.", url := none,
        tabOrder := none, aria := none, errors := some ["Missing URL"] } := by
    intro q
    simp [checkAccessibility, h]
  refine ⟨?_, ?_, ?_⟩
  · rw [hres pm]
  · rw [hres pm]
  · intro pm'
    rw [hres pm, hres pm']

/-- Witness for C9: the whitespace-only url is rejected on a concrete page
oracle. -/
theorem missing_url_rejected_witness :
    (checkAccessibility (.payload (some "   ")) pmShort).ok = false ∧
    (checkAccessibility (.payload (some "   ")) pmShort).errors = some ["Missing URL"] :=
  ⟨(missing_url_rejected (some "   ") pmShort (by decide)).1,
   (missing_url_rejected (some "   ") pmShort (by decide)).2.1⟩

/-- Claim C10: `normalizeUrl` is idempotent, because its output always
passes the case-insensitive scheme test and is therefore returned unchanged
by a second application. -/
theorem normalize_url_idempotent (s : String) :
    normalizeUrl (normalizeUrl s) = normalizeUrl s ∧
    httpPrefixTest (normalizeUrl s) = true := by
  have key : ∀ x : String, httpPrefixTest ("https://" ++ x) = true := by
    intro x
    unfold httpPrefixTest
    have e : ("https://" ++ x).toList = "https://".toList ++ x.toList := by
      show ("https://" ++ x).data = "https://".data ++ x.data
      exact String.data_append "https://" x
    rw [e, List.map_append]
    have e2 : "https://".toList.map Char.toLower = "https://".toList := by decide
    rw [e2]
    have hp : List.isPrefixOf "https://".toList ("https://".toList ++ x.toList.map Char.toLower) = true := by
      rw [List.isPrefixOf_iff_prefix]
      exact List.prefix_append _ _
    simp only [hp, Bool.or_true]
  by_cases h : httpPrefixTest s = true
  · have h1 : normalizeUrl s = s := by simp [normalizeUrl, h]
    rw [h1]
    exact ⟨h1, h⟩
  · have h1 : normalizeUrl s = "https://" ++ s := by simp [normalizeUrl, h]
    rw [h1]
    refine ⟨?_, key s⟩
    simp [normalizeUrl, key s]
